import Mathlib

/-!
# Verification of the vectorize_engine scan and aggregation core

Shallow embedding of the batched (vectorized) executor code:
`contrib/vectorize_engine/nodeAgg.c`, `execScan.c` (VExecScan),
`execTuples.c` / `vectorTupleSlot.c` (vector tuple slots).

Datum values are modelled as `Int`; a (value, isnull) pair models a
`NullableDatum` (`fcinfo->args[i]`).  External function managers
(`FunctionCallInvoke`) are modelled as pure Lean functions supplied as
fields of the per-trans / per-agg descriptors.  Memory-context switches,
`datumCopy` and `ExecAggTransReparent` move or copy bytes without changing
the abstract value, so they are identities in this model.
-/

namespace VectorEngine

/-- Batch capacity of a vector tuple slot.  The constant lives in the
engine's `vtype.h`, which is not among the provided sources.
Modelled from the spec: "fixed capacity N (a compile-time/configured
constant, BATCHSIZE)"; the concrete value is irrelevant to the claims,
we fix the engine's usual 1024. -/
def BATCHSIZE : Nat := 1024

/-! ## Transition-state manager (nodeAgg.c) -/

/-- `AggStatePerGroupData`: per-aggregate, per-group working state
(`transValue`, `transValueIsNull`, `noTransValue`). -/
structure AggStatePerGroupData where
  transValue : Int
  transValueIsNull : Bool
  noTransValue : Bool
  deriving Repr, DecidableEq

/-- The per-trans descriptor fields used by `initialize_aggregate`,
`advance_transition_function` and `process_ordered_aggregate_single`.
`transfn` models `FunctionCallInvoke` of the transition function: it takes
the `args[0]` pair (previous transValue and its null flag) and the list of
the `args[1..]` pairs, and returns the function result pair
(`newVal`, `fcinfo->isnull`). -/
structure AggStatePerTransData where
  transfn_fn_strict : Bool
  transfn : Int → Bool → List (Int × Bool) → Int × Bool
  initValue : Int
  initValueIsNull : Bool
  numDistinctCols : Nat
  equalfnOne : Int → Int → Bool
  /-- abbreviated key computed by the datum sort for each value
  (`tuplesort_getdatum`'s `abbrev` out-parameter). -/
  abbrevKey : Int → Int

/-- `initialize_aggregate` (nodeAgg.c:758-837), the transValue part:
(re)set `transValue` to the declared initial value (datumCopy is an
identity here) and set `noTransValue` when no initial value exists. -/
def initialize_aggregate (pertrans : AggStatePerTransData) : AggStatePerGroupData :=
  { transValue := pertrans.initValue
    transValueIsNull := pertrans.initValueIsNull
    noTransValue := pertrans.initValueIsNull }

/-- `advance_transition_function` (nodeAgg.c:903-1003).
The `Bool` result records whether the transition function was invoked
(`FunctionCallInvoke` reached).  `args` are the preloaded
`fcinfo->args[1..numTransInputs]` pairs. -/
def advance_transition_function (pertrans : AggStatePerTransData)
    (pergroupstate : AggStatePerGroupData) (args : List (Int × Bool)) :
    AggStatePerGroupData × Bool :=
  if pertrans.transfn_fn_strict then
    -- for a strict transfn, nothing happens when there is a NULL input
    if args.any (fun a => a.2) then
      (pergroupstate, false)
    else if pergroupstate.noTransValue then
      -- first non-NULL input: adopt it as the initial transValue
      ({ transValue := (args.headD (0, true)).1
         transValueIsNull := false
         noTransValue := false }, false)
    else if pergroupstate.transValueIsNull then
      -- don't call a strict function with NULL inputs
      (pergroupstate, false)
    else
      let r := pertrans.transfn pergroupstate.transValue
        pergroupstate.transValueIsNull args
      ({ pergroupstate with transValue := r.1, transValueIsNull := r.2 }, true)
  else
    let r := pertrans.transfn pergroupstate.transValue
      pergroupstate.transValueIsNull args
    ({ pergroupstate with transValue := r.1, transValueIsNull := r.2 }, true)

/-- Iterate `advance_transition_function` over a sequence of input rows,
counting how many rows actually invoked the transition function. -/
def advance_many (pertrans : AggStatePerTransData)
    (pergroupstate : AggStatePerGroupData) :
    List (List (Int × Bool)) → AggStatePerGroupData × Nat
  | [] => (pergroupstate, 0)
  | args :: rest =>
    let r := advance_transition_function pertrans pergroupstate args
    let t := advance_many pertrans r.1 rest
    (t.1, (if r.2 then 1 else 0) + t.2)

/-! ## Sort-based DISTINCT processing (single input) -/

/-- The read-out loop of `process_ordered_aggregate_single`
(nodeAgg.c:1236-1314).  The sorted datum stream (value, isnull pairs, in
the order `tuplesort_getdatum` yields them) is consumed; `old` carries
(`oldVal`, `oldAbbrevVal`, `oldIsNull`) when `haveOldVal`, else `none`.
The `Nat` counts calls to `advance_transition_function`. -/
def process_ordered_loop (pertrans : AggStatePerTransData)
    (pergroupstate : AggStatePerGroupData) :
    List (Int × Bool) → Option (Int × Int × Bool) → AggStatePerGroupData × Nat
  | [], _ => (pergroupstate, 0)
  | (v, n) :: rest, old =>
    let skipIt :=
      decide (0 < pertrans.numDistinctCols) &&
      (match old with
       | some (ov, oab, onull) =>
           (onull && n) ||
           (!onull && !n && (oab == pertrans.abbrevKey v) &&
             pertrans.equalfnOne ov v)
       | none => false)
    if skipIt then
      -- equal to prior, so forget this one (pfree only)
      process_ordered_loop pertrans pergroupstate rest old
    else
      let st' := (advance_transition_function pertrans pergroupstate [(v, n)]).1
      let t := process_ordered_loop pertrans st' rest
        (some (v, pertrans.abbrevKey v, n))
      (t.1, t.2 + 1)

/-- `process_ordered_aggregate_single` (nodeAgg.c:1236-1314): perform the
sort, stream the datums through the DISTINCT-collapsing loop, then
`tuplesort_end` and set `pertrans->sortstates[current_set] = NULL`
(the released sort resource is the `Option Unit` component, always
`none` on return). -/
def process_ordered_aggregate_single (pertrans : AggStatePerTransData)
    (pergroupstate : AggStatePerGroupData) (sorted : List (Int × Bool)) :
    AggStatePerGroupData × Nat × Option Unit :=
  let r := process_ordered_loop pertrans pergroupstate sorted none
  (r.1, r.2, none)

/-! ## Finalization -/

/-- The per-agg descriptor fields used by `finalize_aggregate`.
`aggdirectargs` holds the evaluated direct arguments (value, isnull),
going into argument positions 1 and up; `finalfn` models
`FunctionCallInvoke` of the final function, taking the `args[0]` pair
(the transition value, made read-only) and the direct arguments. -/
structure AggStatePerAggData where
  aggdirectargs : List (Int × Bool)
  finalfn_oid_valid : Bool
  finalfn : Int → Bool → List (Int × Bool) → Int × Bool
  finalfn_fn_strict : Bool
  numFinalArgs : Nat

/-- `finalize_aggregate` (nodeAgg.c:1422-1517).  Returns the (unchanged)
per-group state together with (`*resultVal`, `*resultIsNull`): the C
function only reads `pergroupstate` ("it's important that we do nothing
destructive here").  `anynull` collects null direct arguments, a null
transition value, and the trailing argument positions filled with nulls
when `numFinalArgs` exceeds one plus the direct argument count. -/
def finalize_aggregate (peragg : AggStatePerAggData)
    (pergroupstate : AggStatePerGroupData) :
    AggStatePerGroupData × (Int × Bool) :=
  let anynull := peragg.aggdirectargs.any (fun a => a.2)
  if peragg.finalfn_oid_valid then
    let anynull := anynull || pergroupstate.transValueIsNull
        || decide (1 + peragg.aggdirectargs.length < peragg.numFinalArgs)
    if peragg.finalfn_fn_strict && anynull then
      -- don't call a strict function with NULL inputs
      (pergroupstate, (0, true))
    else
      (pergroupstate,
        peragg.finalfn pergroupstate.transValue pergroupstate.transValueIsNull
          peragg.aggdirectargs)
  else
    (pergroupstate, (pergroupstate.transValue, pergroupstate.transValueIsNull))

/-! ## Phase management -/

/-- `Agg` strategy (`AGG_PLAIN`/`AGG_SORTED`/`AGG_HASHED`/`AGG_MIXED`). -/
inductive AggStrategy
  | AGG_PLAIN | AGG_SORTED | AGG_HASHED | AGG_MIXED
  deriving DecidableEq, Repr

/-- The phase-related fields of `AggState`: the phase list built once by
`VExecInitAgg` (phase descriptors abstracted to ids), `numphases`,
`current_phase`, and the input/output tuplesorts (handles abstracted to
ids). -/
structure AggPhaseListState where
  phases : List Nat
  numphases : Nat
  current_phase : Nat
  sort_in : Option Nat
  sort_out : Option Nat
  deriving Repr, DecidableEq

/-- `initialize_phase` (nodeAgg.c:667-727): end the input tuplesort; for
`newphase <= 1` also discard the output tuplesort, otherwise the old
output sort becomes the new input sort; if this is not the last phase,
begin a new output sort keyed for phase `newphase + 1`; finally set
`current_phase = newphase` (and the `phase` pointer).  The function
asserts `newphase <= 1 || newphase == current_phase + 1`. -/
def initialize_phase (st : AggPhaseListState) (newphase : Nat) :
    AggPhaseListState :=
  let st1 : AggPhaseListState := { st with sort_in := none }
  let st2 : AggPhaseListState :=
    if newphase ≤ 1 then { st1 with sort_out := none }
    else { st1 with sort_in := st1.sort_out, sort_out := none }
  let st3 : AggPhaseListState :=
    if 0 < newphase ∧ newphase < st2.numphases - 1 then
      { st2 with sort_out := some (newphase + 1) }
    else st2
  { st3 with current_phase := newphase }

/-- The initial phase chosen by `VExecInitAgg` (nodeAgg.c:3092-3109):
phase 0 for pure `AGG_HASHED`, phase 1 otherwise. -/
def initial_phase_for (strategy : AggStrategy) : Nat :=
  if strategy = AggStrategy.AGG_HASHED then 0 else 1

/-! ## Per-agg sharing pass -/

/-- The `Aggref` fields compared by `find_compatible_peragg`, with node
oids/expressions abstracted to `Nat` ids.  `hasVolatileFuncs` models the
result of `contain_volatile_functions` on the whole aggregate
expression. -/
structure AggrefData where
  inputcollid : Nat
  aggtranstype : Nat
  aggstar : Bool
  aggvariadic : Bool
  aggkind : Nat
  args : List Nat
  aggorder : List Nat
  aggdistinct : List Nat
  aggfilter : Option Nat
  aggfnoid : Nat
  aggtype : Nat
  aggcollid : Nat
  aggdirectargs : List Nat
  hasVolatileFuncs : Bool
  deriving Repr, DecidableEq

/-- One previously initialized per-agg entry as seen by the sharing
search. -/
structure PerAggEntry where
  aggref : AggrefData
  shareable : Bool
  transno : Nat
  deriving Repr, DecidableEq

/-- The "all of the following must be the same or it's no match" test of
`find_compatible_peragg` (nodeAgg.c:3878-3887). -/
def peragg_inputs_match (a b : AggrefData) : Bool :=
  a.inputcollid == b.inputcollid && a.aggtranstype == b.aggtranstype &&
  a.aggstar == b.aggstar && a.aggvariadic == b.aggvariadic &&
  a.aggkind == b.aggkind && a.args == b.args && a.aggorder == b.aggorder &&
  a.aggdistinct == b.aggdistinct && a.aggfilter == b.aggfilter

/-- The "same aggregate function" exact-match test of
`find_compatible_peragg` (nodeAgg.c:3890-3893). -/
def peragg_exact_match (a b : AggrefData) : Bool :=
  a.aggfnoid == b.aggfnoid && a.aggtype == b.aggtype &&
  a.aggcollid == b.aggcollid && a.aggdirectargs == b.aggdirectargs

/-- The search loop of `find_compatible_peragg` over peraggs
`0..lastaggno` (given as an indexed list), carrying the accumulated
`same_input_transnos` list. -/
def find_compatible_peragg_loop (newagg : AggrefData) :
    List (Nat × PerAggEntry) → List Nat → Option Nat × List Nat
  | [], acc => (none, acc)
  | (aggno, pa) :: rest, acc =>
    if !(peragg_inputs_match newagg pa.aggref) then
      find_compatible_peragg_loop newagg rest acc
    else if peragg_exact_match newagg pa.aggref then
      -- exact match: free and reset same_input_transnos, return aggno
      (some aggno, [])
    else
      find_compatible_peragg_loop newagg rest
        (if pa.shareable then acc ++ [pa.transno] else acc)

/-- `find_compatible_peragg` (nodeAgg.c:3845-3913).  `none` models the C
return value `-1`.  The second component is `*same_input_transnos`. -/
def find_compatible_peragg (newagg : AggrefData)
    (peraggs : List PerAggEntry) : Option Nat × List Nat :=
  -- we mustn't reuse the aggref if it contains volatile function calls
  if newagg.hasVolatileFuncs then (none, [])
  else find_compatible_peragg_loop newagg peraggs.enum []

/-! ## Scan executor (execScan.c) -/

/-- A vector batch as the scan handles it: per-column value arrays, the
shared per-row skip mask, and the valid-row count `dim`. -/
structure VScanBatch where
  cols : List (List Int)
  skip : List Bool
  dim : Nat
  deriving Repr, DecidableEq

/-- The predicate/projection configuration of a scan node (`ps.qual`,
`ps.ps_ProjInfo`), with the expression evaluator's batch-level contract
abstracted: `VExecScanQual` reports whether the batch still qualifies
(failing rows are marked skipped inside the evaluator), `ExecProject`
builds the projected output batch. -/
structure VScanNode where
  qual : Option (VScanBatch → Bool)
  projInfo : Option (VScanBatch → VScanBatch)

/-- Observable outcome of one `VExecScan` call: the returned slot
(`none` models a null/empty terminal slot), how often the per-batch
expression context was reset, how many qual evaluations and projection
builds ran, and the `InstrCountFiltered1` counter. -/
structure VScanResult where
  result : Option VScanBatch
  ecxtResets : Nat
  qualEvals : Nat
  projBuilds : Nat
  rowsFiltered : Nat
  deriving Repr, DecidableEq

/-- The qualification loop of `VExecScan` (`for (;;)` in execScan.c),
consuming successive access-method batches (`ExecScanFetch` results) from
`fetched`; `[]` is the access method signalling end-of-data.  A batch
that passes the qual is returned, projected if a projection is
configured, with the projected batch's skip mask overwritten by the scan
batch's skip mask (`memcpy` of `BATCHSIZE` bools). -/
def VExecScanLoop (node : VScanNode) :
    List VScanBatch → Nat → Nat → Nat → Nat → VScanResult
  | [], resets, evals, builds, filtered =>
    { result := none, ecxtResets := resets, qualEvals := evals
      projBuilds := builds, rowsFiltered := filtered }
  | slot :: rest, resets, evals, builds, filtered =>
    let passed := match node.qual with
      | none => (true, evals)
      | some q => (q slot, evals + 1)
    if passed.1 then
      match node.projInfo with
      | some p =>
        { result := some { p slot with skip := slot.skip }
          ecxtResets := resets, qualEvals := passed.2
          projBuilds := builds + 1, rowsFiltered := filtered }
      | none =>
        { result := some slot, ecxtResets := resets, qualEvals := passed.2
          projBuilds := builds, rowsFiltered := filtered }
    else
      VExecScanLoop node rest (resets + 1) passed.2 builds (filtered + 1)

/-- `VExecScan` (execScan.c): with neither qual nor projection, reset the
expression context and return the fetched batch as is; otherwise reset
and enter the qualification loop. -/
def VExecScan (node : VScanNode) (fetched : List VScanBatch) : VScanResult :=
  match node.qual, node.projInfo with
  | none, none =>
    { result := fetched.head?, ecxtResets := 1, qualEvals := 0
      projBuilds := 0, rowsFiltered := 0 }
  | _, _ => VExecScanLoop node fetched 1 0 0 0

/-! ## Result-batch postprocessing of agg_retrieve_direct -/

/-- The vector result slot fields used when emitting an aggregated row:
per-column value arrays (`column->values`), the skip mask, and the empty
flag (`TTS_FLAG_EMPTY`). -/
structure VResultSlot where
  cols : List (List Int)
  skip : List Bool
  empty : Bool
  deriving Repr, DecidableEq

/-- `VExecClearTuple` via `tts_vector_clear` (execTuples.c): mark the
slot empty and reset the whole skip mask to all-true
(`memset(vslot->skip, true, sizeof(vslot->skip))`); column dims are reset
but the value arrays stay allocated. -/
def VExecClearTupleSlot (s : VResultSlot) : VResultSlot :=
  { s with empty := true, skip := List.replicate s.skip.length true }

/-- The tail of `agg_retrieve_direct` (nodeAgg.c:2456-2471): clear the
result slot, write the projected row's values into index 0 of each output
column, set `skip[0] = false`, and unset the empty flag. -/
def agg_direct_postprocess (vslot : VResultSlot) (resultVals : List Int) :
    VResultSlot :=
  let s := VExecClearTupleSlot vslot
  let s := { s with
    cols := List.zipWith (fun (c : List Int) (v : Int) => c.set 0 v)
      s.cols resultVals }
  { s with skip := s.skip.set 0 false, empty := false }

/-! ## Hash retrieval (agg_retrieve_hash_table) -/

/-- The retrieval loop of `agg_retrieve_hash_table` (nodeAgg.c:2560-2651).
`tables` are the not-yet-exhausted hash tables, current grouping set
first; each entry is abstracted to the finalized/projected output value
it yields.  `row` is the output-batch write position.  Returns the
remaining tables, the rows written into the output slot (in order), and
the final `agg_done` flag.  An exhausted table advances to the next
grouping set's table if one remains, else sets `agg_done`; reaching
`BATCHSIZE` written rows breaks out of the loop. -/
def agg_retrieve_hash_loop :
    List (List Int) → Nat → List (List Int) × List Int × Bool
  | [], _ => ([], [], true)
  | [] :: [], _ => ([], [], true)
  | [] :: r :: rs, row => agg_retrieve_hash_loop (r :: rs) row
  | (e :: es) :: rest, row =>
    if row + 1 == BATCHSIZE then (es :: rest, [e], false)
    else
      let t := agg_retrieve_hash_loop (es :: rest) (row + 1)
      (t.1, e :: t.2.1, t.2.2)
  termination_by ts _ => (ts.map List.length).sum + ts.length

/-- `agg_retrieve_hash_table` (nodeAgg.c:2522-2655): clear the output
slot, run the retrieval loop writing one row per hash entry, then execute
the function's only return statement, `return NULL` — the filled output
slot is not handed back.  Components: remaining tables, rows written into
the output slot, `agg_done`, and the value returned to the caller. -/
def agg_retrieve_hash_table (tables : List (List Int)) :
    List (List Int) × List Int × Bool × Option (List Int) :=
  let t := agg_retrieve_hash_loop tables 0
  (t.1, t.2.1, t.2.2, none)

/-- The `AGG_HASHED`/`AGG_MIXED` dispatch of `VExecAgg`
(nodeAgg.c:2087-2116): the result of `agg_retrieve_hash_table` is passed
up when non-null, else NULL is returned to the executor. -/
def VExecAgg_hash_branch (tables : List (List Int)) : Option (List Int) :=
  match (agg_retrieve_hash_table tables).2.2.2 with
  | some r => some r
  | none => none

/-- Number of maximal runs of adjacent equal values, continuing a run
that started at `prev`. -/
def countRunsAux (prev : Int) : List Int → Nat
  | [] => 0
  | x :: xs => (if x == prev then 0 else 1) + countRunsAux x xs

/-- Number of maximal runs of adjacent equal values in a list. -/
def countRuns : List Int → Nat
  | [] => 0
  | x :: xs => 1 + countRunsAux x xs

end VectorEngine

namespace VectorEngine

/-- Helper for C3: inside a group, with a previous value already seen,
the number of transition advances equals the number of value changes. -/
theorem process_ordered_loop_count
    (pertrans : AggStatePerTransData)
    (hdist : 0 < pertrans.numDistinctCols)
    (heq : ∀ a b : Int, pertrans.equalfnOne a b = (a == b)) :
    ∀ (l : List Int) (prev : Int) (st : AggStatePerGroupData),
    (process_ordered_loop pertrans st (l.map (fun v => (v, false)))
        (some (prev, pertrans.abbrevKey prev, false))).2
      = countRunsAux prev l := by
  intro l
  induction l with
  | nil => intro prev st; simp [process_ordered_loop, countRunsAux]
  | cons x xs ih =>
    intro prev st
    by_cases h : prev = x
    · subst h
      simp [process_ordered_loop, countRunsAux, heq,
            decide_eq_true hdist, ih]
    · have hbe : (prev == x) = false := by simp [h]
      have hbe' : (x == prev) = false := by
        simp only [beq_eq_false_iff_ne, ne_eq]
        intro hx
        exact h hx.symm
      simp [process_ordered_loop, countRunsAux, heq, hbe, hbe', ih]
      omega

/-- C3: for a single-input DISTINCT aggregate processed in sorted order
(all inputs non-null), consecutive equal values are collapsed to one
`advance_transition_function` call each (so the number of advances is the
number of maximal runs — 3 for `[1,1,2,2,2,3]`), and on return the sort
state slot for this group and aggregate is set to null. -/
theorem distinct_single_collapses_runs
    (pertrans : AggStatePerTransData) (st : AggStatePerGroupData)
    (values : List Int)
    (hdist : 0 < pertrans.numDistinctCols)
    (heq : ∀ a b : Int, pertrans.equalfnOne a b = (a == b)) :
    (process_ordered_aggregate_single pertrans st
        (values.map (fun v => (v, false)))).2.1 = countRuns values ∧
    (process_ordered_aggregate_single pertrans st
        (values.map (fun v => (v, false)))).2.2 = none := by
  constructor
  · cases values with
    | nil =>
      simp [process_ordered_aggregate_single, process_ordered_loop, countRuns]
    | cons x xs =>
      simp [process_ordered_aggregate_single, process_ordered_loop, countRuns,
            process_ordered_loop_count pertrans hdist heq xs x]
      omega
  · rfl

/-- Witness for C3: the sorted DISTINCT stream `[1,1,2,2,2,3]` triggers
exactly 3 transition advances and releases the sort state. -/
theorem distinct_single_collapses_runs_witness :
    (process_ordered_aggregate_single
      { transfn_fn_strict := false
        transfn := fun acc _ args => (acc + (args.headD (0, true)).1, false)
        initValue := 0, initValueIsNull := false
        numDistinctCols := 1
        equalfnOne := fun a b => a == b
        abbrevKey := id }
      { transValue := 0, transValueIsNull := false, noTransValue := false }
      [(1, false), (1, false), (2, false), (2, false), (2, false), (3, false)]).2.1
      = 3 ∧
    (process_ordered_aggregate_single
      { transfn_fn_strict := false
        transfn := fun acc _ args => (acc + (args.headD (0, true)).1, false)
        initValue := 0, initValueIsNull := false
        numDistinctCols := 1
        equalfnOne := fun a b => a == b
        abbrevKey := id }
      { transValue := 0, transValueIsNull := false, noTransValue := false }
      [(1, false), (1, false), (2, false), (2, false), (2, false), (3, false)]).2.2
      = none := by
  have h := distinct_single_collapses_runs
    { transfn_fn_strict := false
      transfn := fun acc _ args => (acc + (args.headD (0, true)).1, false)
      initValue := 0, initValueIsNull := false
      numDistinctCols := 1
      equalfnOne := fun a b => a == b
      abbrevKey := id }
    { transValue := 0, transValueIsNull := false, noTransValue := false }
    [1, 1, 2, 2, 2, 3] (by decide) (fun a b => rfl)
  exact ⟨by simpa [countRuns, countRunsAux] using h.1, by simpa using h.2⟩

/-- C1: a strict transition function given any null transition input
leaves the per-group state (accumulator, null flag, uninitialized flag)
unchanged and is not invoked. -/
theorem strict_null_input_keeps_state
    (pertrans : AggStatePerTransData) (st : AggStatePerGroupData)
    (args : List (Int × Bool))
    (hstrict : pertrans.transfn_fn_strict = true)
    (hnull : args.any (fun a => a.2) = true) :
    advance_transition_function pertrans st args = (st, false) := by
  unfold advance_transition_function
  rw [hstrict, hnull]
  simp

/-- C2: for a strict aggregate with no declared initial value, the first
all-non-null input is adopted directly as the accumulator (clearing the
null flag and the uninitialized flag) without invoking the transition
function; any later non-null input on an initialized non-null state makes
a normal transition call; on inputs `[NULL, NULL, 5, 3]` the accumulator
is seeded from `5` with no call for that row, then exactly one normal
call happens, for `3`. -/
theorem strict_uninitialized_first_input_adopted
    (pertrans : AggStatePerTransData)
    (hstrict : pertrans.transfn_fn_strict = true)
    (hnoinit : pertrans.initValueIsNull = true) :
    (∀ args : List (Int × Bool), args.any (fun a => a.2) = false →
      advance_transition_function pertrans (initialize_aggregate pertrans) args
        = ({ transValue := (args.headD (0, true)).1
             transValueIsNull := false
             noTransValue := false }, false)) ∧
    (∀ (st : AggStatePerGroupData) (args : List (Int × Bool)),
      st.noTransValue = false → st.transValueIsNull = false →
      args.any (fun a => a.2) = false →
      advance_transition_function pertrans st args
        = ({ st with
             transValue := (pertrans.transfn st.transValue false args).1
             transValueIsNull := (pertrans.transfn st.transValue false args).2 },
           true)) ∧
    advance_many pertrans (initialize_aggregate pertrans)
        [[(11, true)], [(12, true)], [(5, false)], [(3, false)]]
      = ({ transValue := (pertrans.transfn 5 false [(3, false)]).1
           transValueIsNull := (pertrans.transfn 5 false [(3, false)]).2
           noTransValue := false }, 1) := by
  refine ⟨?_, ?_, ?_⟩
  · intro args hargs
    simp [advance_transition_function, initialize_aggregate, hstrict, hnoinit, hargs]
  · intro st args hno hnull hargs
    simp [advance_transition_function, hstrict, hargs, hno, hnull]
  · simp [advance_many, advance_transition_function, initialize_aggregate,
          hstrict, hnoinit]

/-- Witness for C2 at a concrete strict descriptor (sum-like transition
function with no initial value). -/
theorem strict_uninitialized_first_input_adopted_witness :
    advance_many
      { transfn_fn_strict := true
        transfn := fun acc _ args => (acc + (args.headD (0, true)).1, false)
        initValue := 0, initValueIsNull := true
        numDistinctCols := 0
        equalfnOne := fun a b => a == b
        abbrevKey := id }
      (initialize_aggregate
        { transfn_fn_strict := true
          transfn := fun acc _ args => (acc + (args.headD (0, true)).1, false)
          initValue := 0, initValueIsNull := true
          numDistinctCols := 0
          equalfnOne := fun a b => a == b
          abbrevKey := id })
      [[(11, true)], [(12, true)], [(5, false)], [(3, false)]]
    = ({ transValue := 8, transValueIsNull := false, noTransValue := false }, 1) := by
  have h := (strict_uninitialized_first_input_adopted
    { transfn_fn_strict := true
      transfn := fun acc _ args => (acc + (args.headD (0, true)).1, false)
      initValue := 0, initValueIsNull := true
      numDistinctCols := 0
      equalfnOne := fun a b => a == b
      abbrevKey := id } rfl rfl).2.2
  simpa using h

/-- C7: finalizing an aggregate does not mutate the group's transition
state, and a second finalize with no intervening advance returns the
identical state and result. -/
theorem finalize_aggregate_idempotent
    (peragg : AggStatePerAggData) (st : AggStatePerGroupData) :
    (finalize_aggregate peragg st).1 = st ∧
    finalize_aggregate peragg (finalize_aggregate peragg st).1
      = finalize_aggregate peragg st := by
  have h1 : (finalize_aggregate peragg st).1 = st := by
    unfold finalize_aggregate
    by_cases hv : peragg.finalfn_oid_valid <;> simp [hv]
    split <;> rfl
  exact ⟨h1, by rw [h1]⟩

/-- C8: `initialize_phase` (the only operation that changes the current
phase during execution) leaves the phase list untouched, and under its
asserted precondition moves the phase index only to 0, to 1, or from `p`
to `p+1`; the initial phase set by `VExecInitAgg` is 1 for the `PLAIN`,
`SORTED` and `MIXED` strategies and 0 for pure `HASHED`. -/
theorem phase_list_fixed_and_phase_monotone
    (st : AggPhaseListState) (newphase : Nat)
    (h : newphase ≤ 1 ∨ newphase = st.current_phase + 1) :
    (initialize_phase st newphase).phases = st.phases ∧
    ((initialize_phase st newphase).current_phase = 0 ∨
     (initialize_phase st newphase).current_phase = 1 ∨
     (initialize_phase st newphase).current_phase = st.current_phase + 1) ∧
    initial_phase_for AggStrategy.AGG_SORTED = 1 ∧
    initial_phase_for AggStrategy.AGG_PLAIN = 1 ∧
    initial_phase_for AggStrategy.AGG_MIXED = 1 ∧
    initial_phase_for AggStrategy.AGG_HASHED = 0 := by
  have hphases : (initialize_phase st newphase).phases = st.phases := by
    simp only [initialize_phase]
    split <;> split <;> rfl
  have hcur : (initialize_phase st newphase).current_phase = newphase := by
    simp only [initialize_phase]
  refine ⟨hphases, ?_, rfl, rfl, rfl, rfl⟩
  rw [hcur]
  rcases h with h | h
  · interval_cases newphase
    · exact Or.inl rfl
    · exact Or.inr (Or.inl rfl)
  · exact Or.inr (Or.inr h)

/-- Witness for C8: advancing from phase 1 to phase 2 on a three-phase
state keeps the phase list and lands on phase 2. -/
theorem phase_list_fixed_and_phase_monotone_witness :
    (initialize_phase
      { phases := [10, 11, 12], numphases := 3, current_phase := 1
        sort_in := some 7, sort_out := some 8 } 2).phases = [10, 11, 12] ∧
    ((initialize_phase
      { phases := [10, 11, 12], numphases := 3, current_phase := 1
        sort_in := some 7, sort_out := some 8 } 2).current_phase = 0 ∨
     (initialize_phase
      { phases := [10, 11, 12], numphases := 3, current_phase := 1
        sort_in := some 7, sort_out := some 8 } 2).current_phase = 1 ∨
     (initialize_phase
      { phases := [10, 11, 12], numphases := 3, current_phase := 1
        sort_in := some 7, sort_out := some 8 } 2).current_phase = 1 + 1) := by
  have h := phase_list_fixed_and_phase_monotone
    { phases := [10, 11, 12], numphases := 3, current_phase := 1
      sort_in := some 7, sort_out := some 8 } 2 (Or.inr rfl)
  exact ⟨h.1, h.2.1⟩

/-- C10: an aggregate expression containing volatile function calls is
never shared: `find_compatible_peragg` reports no match (C return value
`-1`, modelled `none`) and an empty `same_input_transnos` list, whatever
the previously initialized per-aggs are. -/
theorem volatile_aggref_never_shared
    (newagg : AggrefData) (peraggs : List PerAggEntry)
    (hvol : newagg.hasVolatileFuncs = true) :
    find_compatible_peragg newagg peraggs = (none, []) := by
  simp [find_compatible_peragg, hvol]

/-- Witness for C10: a volatile aggregate finds no compatible per-agg
even when an otherwise identical entry exists. -/
theorem volatile_aggref_never_shared_witness :
    find_compatible_peragg
      { inputcollid := 0, aggtranstype := 23, aggstar := false
        aggvariadic := false, aggkind := 0, args := [1], aggorder := []
        aggdistinct := [], aggfilter := none, aggfnoid := 2108
        aggtype := 23, aggcollid := 0, aggdirectargs := []
        hasVolatileFuncs := true }
      [{ aggref :=
          { inputcollid := 0, aggtranstype := 23, aggstar := false
            aggvariadic := false, aggkind := 0, args := [1], aggorder := []
            aggdistinct := [], aggfilter := none, aggfnoid := 2108
            aggtype := 23, aggcollid := 0, aggdirectargs := []
            hasVolatileFuncs := true }
         shareable := true, transno := 0 }]
      = (none, []) :=
  volatile_aggref_never_shared _ _ rfl

/-- C5: a scan with neither predicate nor projection returns the batch
fetched from the access method unchanged (rows and skip mask included),
after one expression-context reset and with no predicate or projection
work performed. -/
theorem scan_passthrough
    (node : VScanNode) (fetched : List VScanBatch)
    (hq : node.qual = none) (hp : node.projInfo = none) :
    VExecScan node fetched =
      { result := fetched.head?, ecxtResets := 1, qualEvals := 0
        projBuilds := 0, rowsFiltered := 0 } := by
  simp [VExecScan, hq, hp]

/-- Witness for C5: a single fetched batch is passed through untouched. -/
theorem scan_passthrough_witness :
    VExecScan { qual := none, projInfo := none }
      [{ cols := [[1, 2]], skip := [false, true], dim := 2 }] =
      { result := some { cols := [[1, 2]], skip := [false, true], dim := 2 }
        ecxtResets := 1, qualEvals := 0, projBuilds := 0
        rowsFiltered := 0 } := by
  simpa using scan_passthrough { qual := none, projInfo := none }
    [{ cols := [[1, 2]], skip := [false, true], dim := 2 }] rfl rfl

/-- C6: when a projection is configured and a batch passes the predicate,
the projected result batch carries the scanned batch's skip mask,
copied verbatim over the projection output's mask. -/
theorem projection_copies_skip_mask
    (node : VScanNode) (q : VScanBatch → Bool) (p : VScanBatch → VScanBatch)
    (b : VScanBatch) (rest : List VScanBatch)
    (hq : node.qual = some q) (hp : node.projInfo = some p)
    (hpass : q b = true) :
    (VExecScan node (b :: rest)).result = some { p b with skip := b.skip } ∧
    ∀ out, (VExecScan node (b :: rest)).result = some out →
      out.skip = b.skip := by
  have h1 : (VExecScan node (b :: rest)).result
      = some { p b with skip := b.skip } := by
    simp [VExecScan, VExecScanLoop, hq, hp, hpass]
  refine ⟨h1, fun out hout => ?_⟩
  rw [h1] at hout
  cases hout
  rfl

/-- Witness for C6: a concrete projection output receives the scanned
batch's skip mask unchanged. -/
theorem projection_copies_skip_mask_witness :
    (VExecScan
      { qual := some (fun _ => true)
        projInfo := some (fun s =>
          { cols := [[9, 9]], skip := [true, true], dim := s.dim }) }
      [{ cols := [[1, 2]], skip := [false, true], dim := 2 }]).result
    = some { cols := [[9, 9]], skip := [false, true], dim := 2 } := by
  have h := projection_copies_skip_mask
    { qual := some (fun _ => true)
      projInfo := some (fun s =>
        { cols := [[9, 9]], skip := [true, true], dim := s.dim }) }
    (fun _ => true)
    (fun s => { cols := [[9, 9]], skip := [true, true], dim := s.dim })
    { cols := [[1, 2]], skip := [false, true], dim := 2 } [] rfl rfl rfl
  simpa using h.1

/-- C9: the direct-retrieval postprocessing emits exactly one valid
output row whatever the batch capacity: the finalized values land at row
index 0 of each column, `skip[0]` is cleared, every other row stays
skipped, and the slot is marked non-empty. -/
theorem direct_retrieval_emits_single_row
    (vslot : VResultSlot) (resultVals : List Int)
    (h : 0 < vslot.skip.length) :
    (agg_direct_postprocess vslot resultVals).skip
      = false :: List.replicate (vslot.skip.length - 1) true ∧
    (agg_direct_postprocess vslot resultVals).empty = false ∧
    (agg_direct_postprocess vslot resultVals).cols
      = List.zipWith (fun (c : List Int) (v : Int) => c.set 0 v)
          vslot.cols resultVals := by
  refine ⟨?_, rfl, rfl⟩
  cases hsk : vslot.skip with
  | nil => rw [hsk] at h; simp at h
  | cons a l =>
    simp [agg_direct_postprocess, VExecClearTupleSlot, hsk,
          List.replicate_succ]

/-- Witness for C9 on a capacity-3 slot and one output column. -/
theorem direct_retrieval_emits_single_row_witness :
    (agg_direct_postprocess
      { cols := [[0, 0, 0]], skip := [true, true, true], empty := true }
      [7]).skip = [false, true, true] ∧
    (agg_direct_postprocess
      { cols := [[0, 0, 0]], skip := [true, true, true], empty := true }
      [7]).empty = false ∧
    (agg_direct_postprocess
      { cols := [[0, 0, 0]], skip := [true, true, true], empty := true }
      [7]).cols = [[7, 0, 0]] := by
  have h := direct_retrieval_emits_single_row
    { cols := [[0, 0, 0]], skip := [true, true, true], empty := true }
    [7] (by decide)
  refine ⟨?_, h.2.1, ?_⟩
  · have := h.1
    simpa using this
  · have := h.2.2
    simpa using this

/-- C4: `agg_retrieve_hash_table` writes one output row per hash entry
and, on exhausting the last table, marks aggregation done — but its only
return statement is `return NULL`, so the filled output batch is never
handed to the caller and `VExecAgg` reports end-of-data.  Evaluated here
at a single hash table holding entries 5 and 7: both rows are written
into the output slot, yet the function and the `VExecAgg` hash branch
return NULL. -/
theorem hash_retrieval_never_returns_batch :
    agg_retrieve_hash_table [[5, 7]] = ([], [5, 7], true, none) ∧
    VExecAgg_hash_branch [[5, 7]] = none := by
  constructor
  · simp [agg_retrieve_hash_table, agg_retrieve_hash_loop, BATCHSIZE]
  · simp [VExecAgg_hash_branch, agg_retrieve_hash_table,
          agg_retrieve_hash_loop, BATCHSIZE]

/-- Witness for C1 at a concrete strict descriptor and a null input. -/
theorem strict_null_input_keeps_state_witness :
    advance_transition_function
      { transfn_fn_strict := true
        transfn := fun acc _ args => (acc + (args.headD (0, true)).1, false)
        initValue := 0, initValueIsNull := true
        numDistinctCols := 0
        equalfnOne := fun a b => a == b
        abbrevKey := id }
      { transValue := 7, transValueIsNull := false, noTransValue := false }
      [(5, true)]
    = ({ transValue := 7, transValueIsNull := false, noTransValue := false }, false) :=
  strict_null_input_keeps_state _ _ _ rfl rfl

end VectorEngine
